import Mathlib

/-
  Verification development for the static HTTP server in
  src/examples/static-server/main.c.

  The server is a libuv event-loop program: the event loop and the streaming
  HTTP parser are external collaborators, consumed through callbacks.  The
  embedding below models each C callback as a pure function from its inputs
  to the list of stream/handle actions it issues, in issue order.  The
  outcome of one parser-execute call (consumed byte count plus the sequence
  of element callbacks it fires) is an abstract input, matching the parser
  interface given in the spec: execute(buffer, length) returns a consumed
  count and invokes the registered callbacks synchronously.
-/

namespace StaticServer

/-- The fixed response literal from main.c lines 18-23. -/
def DEFAULT_RESPONSE : String :=
  "HTTP/1.1 200 OK\r\nContent-Type: text/plain\r\nContent-Length: 12\r\n\r\nhello world\n"

/-- main() sets default_response.base to DEFAULT_RESPONSE (line 194). -/
def default_response : String := DEFAULT_RESPONSE

/-- main() sets default_response.len = strlen(default_response.base)
    (line 195).  The literal is NUL-free ASCII, so strlen counts its
    UTF-8 bytes. -/
def default_response_len : Nat := default_response.utf8ByteSize

/-- The libuv end-of-stream sentinel delivered to read callbacks. -/
def UV_EOF : Int := -4095

/-- One element callback fired by http_parser_execute, with the text the
    data callbacks receive. -/
inductive CbEvent where
  | MessageBegin
  | Url (s : String)
  | StatusLine (s : String)
  | HeaderField (s : String)
  | HeaderValue (s : String)
  | HeadersComplete
  | MessageComplete
deriving DecidableEq

/-- Outcome of one http_parser_execute call on a chunk: the consumed byte
    count it returns and the callbacks it fired, in order. -/
structure ParseResult where
  parsed : Nat
  events : List CbEvent
deriving DecidableEq

/-- An action the server issues on a connection handle or stream. -/
inductive Action where
  /-- uv_write of the given payload with on_res_write as completion. -/
  | write (payload : String)
  /-- uv_close; the flag records whether on_res_end was passed (true)
      or NULL (false). -/
  | closeHandle (withCb : Bool)
  /-- uv_read_start on the accepted socket. -/
  | readStart
  /-- exit(1) via the CHECK macro. -/
  | exitProc
deriving DecidableEq

def isWrite : Action → Bool
  | Action.write _ => true
  | _ => false

def isClose : Action → Bool
  | Action.closeHandle _ => true
  | _ => false

/-- Actions after which the event loop delivers no further ordinary events
    to this connection: a close was initiated or the process exited. -/
def isTerminal : Action → Bool
  | Action.closeHandle _ => true
  | Action.exitProc => true
  | _ => false

/-- Return value of the C callback on_headers_complete (lines 171-179):
    it logs and returns 1. -/
def on_headers_complete (request_id : Nat) : Int := 1

/-- Modelled from the spec: the streaming-parser interface is external to
    src/; per spec section 6, the headers-complete callback return value
    controls body-skipping, and returning 1 signals the parser to treat
    the message as bodiless. -/
def bodySkipSignal : Int := 1

/-- Stream actions issued by one parser element callback.  The
    observational callbacks (message-begin, url, status, header
    field/value) copy text for logging, free it and return 0, issuing no
    stream action; on_headers_complete logs and returns 1;
    on_message_complete (lines 181-189) issues
    uv_write(default_response) with on_res_write as completion. -/
def runCallback : CbEvent → List Action
  | CbEvent.MessageComplete => [Action.write default_response]
  | _ => []

/-- All stream actions issued while http_parser_execute fires the given
    callbacks, in order. -/
def runCallbacks : List CbEvent → List Action
  | [] => []
  | e :: es => runCallback e ++ runCallbacks es

/-- on_client_read (lines 93-114): on UV_EOF, close with NULL callback;
    on positive nread, run the parser (firing its callbacks) and, if the
    consumed count is below nread, close with on_res_end; otherwise
    (negative error or zero) only log. -/
def on_client_read (nread : Int) (pr : ParseResult) : List Action :=
  if nread = UV_EOF then
    [Action.closeHandle false]
  else if 0 < nread then
    runCallbacks pr.events ++
      (if (pr.parsed : Int) < nread then [Action.closeHandle true] else [])
  else
    []

/-- on_res_write (lines 116-119): CHECK(status) exits the process on a
    nonzero status; otherwise the handle is closed with on_res_end. -/
def on_res_write (status : Int) : List Action :=
  if status ≠ 0 then [Action.exitProc] else [Action.closeHandle true]

/-- on_connect (lines 56-91): CHECK(status) exits on a nonzero status;
    otherwise a client is allocated, request_id is assigned from the
    process-wide counter which is then incremented, and uv_accept is
    tried: on failure the handle is closed with NULL callback, on success
    reading starts.  Returns the issued actions and the new counter. -/
def on_connect (status : Int) (acceptResult : Int) (counter : Nat) :
    List Action × Nat :=
  if status ≠ 0 then ([Action.exitProc], counter)
  else if acceptResult ≠ 0 then ([Action.closeHandle false], counter + 1)
  else ([Action.readStart], counter + 1)

/-- One event the loop delivers to an established connection. -/
inductive LoopEvent where
  | read (nread : Int) (pr : ParseResult)
  | writeDone (status : Int)
deriving DecidableEq

def handleEvent : LoopEvent → List Action
  | LoopEvent.read n pr => on_client_read n pr
  | LoopEvent.writeDone s => on_res_write s

/-- All actions a connection issues over a delivered event sequence. -/
def connRun : List LoopEvent → List Action
  | [] => []
  | e :: es => handleEvent e ++ connRun es

/-- After a close or exit, the only event libuv may still deliver for this
    connection is the completion of a pending write cancelled by the
    close, which carries a nonzero status. -/
def afterTerminalOk : List LoopEvent → Bool
  | [] => true
  | LoopEvent.writeDone s :: rest => decide (s ≠ 0) && decide (rest = [])
  | _ => false

/-- Event sequences the loop can deliver: once a handler initiates a close
    or exits, no ordinary event follows. -/
def wellFormed : List LoopEvent → Bool
  | [] => true
  | e :: es =>
    if (handleEvent e).any isTerminal then afterTerminalOk es
    else wellFormed es

/-- Number of message-complete callbacks the parser fired in one chunk. -/
def mcEvents (pr : ParseResult) : Nat :=
  pr.events.countP (fun e => decide (e = CbEvent.MessageComplete))

/-- Message-complete count of a delivered event. -/
def eventMc : LoopEvent → Nat
  | LoopEvent.read _ pr => mcEvents pr
  | LoopEvent.writeDone _ => 0

/-- Message-complete count over a whole event sequence. -/
def mcCount : List LoopEvent → Nat
  | [] => 0
  | e :: es => eventMc e + mcCount es

/-- Startup outcome of main (lines 192-224): CHECK after uv_ip4_addr,
    uv_tcp_init and uv_tcp_bind exits on a nonzero result; the uv_listen
    result is assigned to r but never checked, so the run loop is entered
    regardless of it. -/
inductive StartupOutcome where
  | exited
  | running
deriving DecidableEq

def mainStartup (addrR initR bindR listenR : Int) : StartupOutcome :=
  if addrR ≠ 0 then StartupOutcome.exited
  else if initR ≠ 0 then StartupOutcome.exited
  else if bindR ≠ 0 then StartupOutcome.exited
  else StartupOutcome.running

/-- Fold of on_connect over a run of connect events with clean status,
    one entry per event: the id the new client was assigned and the
    actions issued. -/
def runConnects (counter : Nat) : List Int → List (Nat × List Action)
  | [] => []
  | r :: rs =>
    (counter, (on_connect 0 r counter).1) ::
      runConnects (on_connect 0 r counter).2 rs

/-- Ids of the connections whose accept succeeded, in accept order. -/
def acceptedIds (counter : Nat) (rs : List Int) : List Nat :=
  (runConnects counter rs).filterMap
    (fun p => if p.2 = [Action.readStart] then some p.1 else none)

/-- Member declaration order of struct client_t (lines 25-30): the
    uv_tcp_t handle is the first member. -/
def client_t_members : List String :=
  ["handle", "parser", "write_req", "request_id"]

/-- Byte offset of the i-th struct member under a layout assigning each
    member its size plus trailing padding; C places the first member at
    the start of the struct. -/
def fieldOffset (layout : List Nat) (i : Nat) : Nat :=
  (layout.take i).sum

/-! Helper lemmas about the embedding. -/

theorem runCallbacks_all_write (evs : List CbEvent) :
    ∀ a ∈ runCallbacks evs, a = Action.write default_response := by
  induction evs with
  | nil => intro a ha; simp [runCallbacks] at ha
  | cons e es ih =>
    intro a ha
    simp only [runCallbacks, List.mem_append] at ha
    rcases ha with h | h
    · cases e <;> simp_all [runCallback]
    · exact ih a h

theorem runCallbacks_nil_of_no_mc (evs : List CbEvent)
    (h : CbEvent.MessageComplete ∉ evs) : runCallbacks evs = [] := by
  induction evs with
  | nil => rfl
  | cons e es ih =>
    simp only [List.mem_cons, not_or] at h
    have he : runCallback e = [] := by
      cases e <;> first | rfl | exact absurd rfl h.1
    simp [runCallbacks, he, ih h.2]

theorem write_mem_runCallbacks (evs : List CbEvent)
    (h : CbEvent.MessageComplete ∈ evs) :
    Action.write default_response ∈ runCallbacks evs := by
  induction evs with
  | nil => cases h
  | cons e es ih =>
    rcases List.mem_cons.mp h with h | h
    · subst h; simp [runCallbacks, runCallback]
    · simp only [runCallbacks, List.mem_append]
      exact Or.inr (ih h)

theorem countWrite_runCallbacks (evs : List CbEvent) :
    (runCallbacks evs).countP isWrite =
      evs.countP (fun e => decide (e = CbEvent.MessageComplete)) := by
  induction evs with
  | nil => rfl
  | cons e es ih =>
    simp only [runCallbacks, List.countP_append, List.countP_cons, ih]
    cases e <;> simp [runCallback, isWrite] <;> omega

theorem handleEvent_write_le (e : LoopEvent) :
    (handleEvent e).countP isWrite ≤ eventMc e := by
  cases e with
  | read n pr =>
    by_cases h1 : n = UV_EOF
    · simp [handleEvent, on_client_read, h1, isWrite, eventMc]
    · by_cases h2 : 0 < n
      · simp only [handleEvent, on_client_read, if_neg h1, if_pos h2,
          List.countP_append, eventMc, mcEvents, countWrite_runCallbacks]
        by_cases h3 : (pr.parsed : Int) < n
        · simp [h3, isWrite]
        · simp [h3]
      · simp [handleEvent, on_client_read, h1, h2, eventMc]
  | writeDone s =>
    by_cases h : s ≠ 0 <;>
      simp [handleEvent, on_res_write, h, isWrite, eventMc]

theorem connRun_write_le (t : List LoopEvent) :
    (connRun t).countP isWrite ≤ mcCount t := by
  induction t with
  | nil => simp [connRun, mcCount]
  | cons e es ih =>
    simp only [connRun, List.countP_append, mcCount]
    have := handleEvent_write_le e
    omega

theorem handleEvent_close_le_one (e : LoopEvent) :
    (handleEvent e).countP isClose ≤ 1 := by
  cases e with
  | read n pr =>
    by_cases h1 : n = UV_EOF
    · simp [handleEvent, on_client_read, h1, isClose]
    · by_cases h2 : 0 < n
      · have h0 : (runCallbacks pr.events).countP isClose = 0 := by
          apply List.countP_eq_zero.mpr
          intro a ha
          have hw := runCallbacks_all_write pr.events a ha
          subst hw
          simp [isClose]
        simp only [handleEvent, on_client_read, if_neg h1, if_pos h2,
          List.countP_append, h0]
        by_cases h3 : (pr.parsed : Int) < n
        · simp [h3, isClose]
        · simp [h3]
      · simp [handleEvent, on_client_read, h1, h2]
  | writeDone s =>
    by_cases h : s ≠ 0 <;>
      simp [handleEvent, on_res_write, h, isClose]

theorem countClose_zero_of_no_terminal (l : List Action)
    (h : l.any isTerminal = false) : l.countP isClose = 0 := by
  have h' : ∀ a ∈ l, isTerminal a = false := by
    intro a ha
    by_contra hne
    have : l.any isTerminal = true :=
      List.any_eq_true.mpr ⟨a, ha, by simpa using hne⟩
    simp [this] at h
  apply List.countP_eq_zero.mpr
  intro a ha
  have ht := h' a ha
  cases a <;> simp [isClose, isTerminal] at ht ⊢

theorem closes_le_one (t : List LoopEvent) (h : wellFormed t = true) :
    (connRun t).countP isClose ≤ 1 := by
  induction t with
  | nil => simp [connRun]
  | cons e es ih =>
    simp only [connRun, List.countP_append]
    by_cases ht : (handleEvent e).any isTerminal = true
    · have hafter : afterTerminalOk es = true := by
        simpa [wellFormed, ht] using h
      have hrest : (connRun es).countP isClose = 0 := by
        cases es with
        | nil => rfl
        | cons e2 es2 =>
          cases e2 with
          | read n pr => simp [afterTerminalOk] at hafter
          | writeDone s =>
            simp only [afterTerminalOk, Bool.and_eq_true, decide_eq_true_eq]
              at hafter
            obtain ⟨hs, hes⟩ := hafter
            subst hes
            have hrw : connRun [LoopEvent.writeDone s] = [Action.exitProc] := by
              simp [connRun, handleEvent, on_res_write, hs]
            rw [hrw]
            rfl
      have := handleEvent_close_le_one e
      omega
    · have hnf : (handleEvent e).any isTerminal = false := by
        revert ht; cases (handleEvent e).any isTerminal <;> simp
      have h0 := countClose_zero_of_no_terminal _ hnf
      have hwf : wellFormed es = true := by
        simpa [wellFormed, hnf] using h
      have := ih hwf
      omega

theorem acceptedIds_cons (c : Nat) (r : Int) (rs : List Int) :
    acceptedIds c (r :: rs) =
      if r = 0 then c :: acceptedIds (c + 1) rs
      else acceptedIds (c + 1) rs := by
  by_cases hr : r = 0
  · subst hr
    simp [acceptedIds, runConnects, on_connect, List.filterMap_cons]
  · simp [acceptedIds, runConnects, on_connect, hr, List.filterMap_cons]

theorem acceptedIds_le (c : Nat) (rs : List Int) :
    ∀ x ∈ acceptedIds c rs, c ≤ x := by
  induction rs generalizing c with
  | nil => intro x hx; simp [acceptedIds, runConnects] at hx
  | cons r rs ih =>
    intro x hx
    rw [acceptedIds_cons] at hx
    by_cases hr : r = 0
    · rw [if_pos hr] at hx
      rcases List.mem_cons.mp hx with h | h
      · omega
      · have := ih (c + 1) x h; omega
    · rw [if_neg hr] at hx
      have := ih (c + 1) x hx; omega

/-! Claim theorems. -/

/-- C1: for every accepted connection whose byte stream is successfully
    parsed through message-complete, the server writes exactly the fixed
    byte sequence DEFAULT_RESPONSE as its response, identical for all
    such connections regardless of the request method, path or headers:
    the chunk that fires message-complete with full consumption issues a
    write of exactly DEFAULT_RESPONSE, and every write the read handler
    ever issues carries exactly DEFAULT_RESPONSE. -/
theorem c1_uniform_fixed_response (n : Int) (pr : ParseResult)
    (hn : 0 < n) (hmc : CbEvent.MessageComplete ∈ pr.events)
    (hfull : (pr.parsed : Int) = n) :
    Action.write DEFAULT_RESPONSE ∈ on_client_read n pr ∧
      ∀ a ∈ on_client_read n pr, isWrite a = true →
        a = Action.write DEFAULT_RESPONSE := by
  have hne : n ≠ UV_EOF := by
    intro h; rw [h] at hn; norm_num [UV_EOF] at hn
  have hdr : default_response = DEFAULT_RESPONSE := rfl
  constructor
  · simp only [on_client_read, if_neg hne, if_pos hn, List.mem_append]
    exact Or.inl (hdr ▸ write_mem_runCallbacks pr.events hmc)
  · intro a ha hw
    simp only [on_client_read, if_neg hne, if_pos hn, List.mem_append] at ha
    rcases ha with h | h
    · exact hdr ▸ runCallbacks_all_write pr.events a h
    · have hp : ¬ (pr.parsed : Int) < n := by omega
      simp [hp] at h

/-- C1 witness. -/
theorem c1_uniform_fixed_response_witness :
    Action.write DEFAULT_RESPONSE ∈
        on_client_read 26 ⟨26, [CbEvent.MessageBegin, CbEvent.Url "/",
          CbEvent.HeaderField "Host", CbEvent.HeaderValue "x",
          CbEvent.HeadersComplete, CbEvent.MessageComplete]⟩ ∧
      ∀ a ∈ on_client_read 26 ⟨26, [CbEvent.MessageBegin, CbEvent.Url "/",
          CbEvent.HeaderField "Host", CbEvent.HeaderValue "x",
          CbEvent.HeadersComplete, CbEvent.MessageComplete]⟩,
        isWrite a = true → a = Action.write DEFAULT_RESPONSE :=
  c1_uniform_fixed_response 26
    ⟨26, [CbEvent.MessageBegin, CbEvent.Url "/", CbEvent.HeaderField "Host",
      CbEvent.HeaderValue "x", CbEvent.HeadersComplete,
      CbEvent.MessageComplete]⟩
    (by decide) (by decide) (by decide)

/-- C2 counterexample: a chunk of 10 bytes of which the parser consumed
    only 5 but on which it fired headers-complete and message-complete
    does NOT leave the connection with zero bytes written: the response
    write is issued (inside the parser-execute call, when
    message-complete fires) before the under-consumption check closes
    the handle. -/
theorem c2_counterexample :
    on_client_read 10
        ⟨5, [CbEvent.HeadersComplete, CbEvent.MessageComplete]⟩ =
      [Action.write default_response, Action.closeHandle true] ∧
    (on_client_read 10
        ⟨5, [CbEvent.HeadersComplete, CbEvent.MessageComplete]⟩).countP
        isWrite ≠ 0 := by
  constructor <;> decide

/-- C2 amended: for every input chunk on which the parser consumes
    strictly fewer bytes than it was given, the connection is closed
    immediately; no response bytes are written on that path provided no
    message-complete signal fired during that execute call (if
    message-complete did fire in the same chunk, the write was already
    issued before the close). -/
theorem c2_amended_close_without_write (n : Int) (pr : ParseResult)
    (hn : 0 < n) (hu : (pr.parsed : Int) < n)
    (hmc : CbEvent.MessageComplete ∉ pr.events) :
    on_client_read n pr = [Action.closeHandle true] := by
  have hne : n ≠ UV_EOF := by
    intro h; rw [h] at hn; norm_num [UV_EOF] at hn
  simp only [on_client_read, if_neg hne, if_pos hn, if_pos hu,
    runCallbacks_nil_of_no_mc pr.events hmc, List.nil_append]

/-- C2 witness. -/
theorem c2_amended_close_without_write_witness :
    on_client_read 10 ⟨5, [CbEvent.HeadersComplete]⟩ =
      [Action.closeHandle true] :=
  c2_amended_close_without_write 10 ⟨5, [CbEvent.HeadersComplete]⟩
    (by decide) (by decide) (by decide)

/-- C3 counterexample: the fixed response constant is not 90 bytes long;
    its strlen is 77. -/
theorem c3_counterexample :
    default_response_len = 77 ∧ ¬ default_response_len = 90 := by
  decide

/-- C3 amended: the length of the process-wide fixed response constant,
    computed as strlen of the response literal, equals 77. -/
theorem c3_amended_response_length :
    default_response_len = 77 ∧ DEFAULT_RESPONSE.length = 77 := by
  decide

/-- C4 counterexample: a single well-formed event sequence whose one
    chunk is fully consumed while firing message-complete twice
    (two pipelined requests) makes the connection issue two writes, so
    at most one write per connection does not hold. -/
theorem c4_counterexample :
    wellFormed [LoopEvent.read 32 ⟨32, [CbEvent.HeadersComplete,
        CbEvent.MessageComplete, CbEvent.HeadersComplete,
        CbEvent.MessageComplete]⟩] = true ∧
    ¬ (connRun [LoopEvent.read 32 ⟨32, [CbEvent.HeadersComplete,
        CbEvent.MessageComplete, CbEvent.HeadersComplete,
        CbEvent.MessageComplete]⟩]).countP isWrite ≤ 1 := by
  constructor <;> decide

/-- C4 amended: for every connection whose delivered events respect the
    event loop guarantee (no ordinary event after a close or exit, save
    the nonzero-status completion of a cancelled write) and whose parsed
    stream signals message-complete at most once (pipelined requests
    excluded, as the spec itself declares them unsupported), at most one
    write and at most one close are issued over the whole lifetime. -/
theorem c4_amended_single_write_single_close (t : List LoopEvent)
    (hwf : wellFormed t = true) (hmc : mcCount t ≤ 1) :
    (connRun t).countP isWrite ≤ 1 ∧ (connRun t).countP isClose ≤ 1 :=
  ⟨le_trans (connRun_write_le t) hmc, closes_le_one t hwf⟩

/-- C4 witness. -/
theorem c4_amended_single_write_single_close_witness :
    wellFormed [LoopEvent.read 26
          ⟨26, [CbEvent.HeadersComplete, CbEvent.MessageComplete]⟩,
        LoopEvent.writeDone 0] = true ∧
      mcCount [LoopEvent.read 26
          ⟨26, [CbEvent.HeadersComplete, CbEvent.MessageComplete]⟩,
        LoopEvent.writeDone 0] ≤ 1 ∧
      ((connRun [LoopEvent.read 26
          ⟨26, [CbEvent.HeadersComplete, CbEvent.MessageComplete]⟩,
        LoopEvent.writeDone 0]).countP isWrite ≤ 1 ∧
       (connRun [LoopEvent.read 26
          ⟨26, [CbEvent.HeadersComplete, CbEvent.MessageComplete]⟩,
        LoopEvent.writeDone 0]).countP isClose ≤ 1) :=
  ⟨by decide, by decide,
    c4_amended_single_write_single_close
      [LoopEvent.read 26
          ⟨26, [CbEvent.HeadersComplete, CbEvent.MessageComplete]⟩,
        LoopEvent.writeDone 0]
      (by decide) (by decide)⟩

/-- C5: a read callback reporting end-of-stream closes the connection
    immediately (uv_close with NULL callback) and writes zero bytes:
    the handler issues exactly one close and no write, whatever the
    parser state was. -/
theorem c5_eof_closes_without_write (pr : ParseResult) :
    on_client_read UV_EOF pr = [Action.closeHandle false] ∧
      (on_client_read UV_EOF pr).countP isWrite = 0 := by
  have h : on_client_read UV_EOF pr = [Action.closeHandle false] := by
    simp [on_client_read]
  exact ⟨h, by rw [h]; rfl⟩

/-- C6 counterexample: on a transport-level read failure (nread = -104,
    ECONNRESET) the read handler only logs: it issues no close at all,
    so the affected connection is not closed as the claim states. -/
theorem c6_counterexample :
    on_client_read (-104) ⟨0, []⟩ = [] ∧
      (on_client_read (-104) ⟨0, []⟩).countP isClose = 0 := by
  constructor <;> decide

/-- C6 amended: accept failures are connection-scoped and non-fatal: the
    new handle is closed (NULL callback), no exit is issued, and the
    process-wide counter moves on so the listener keeps accepting.
    Transport-level read failures are logged without terminating the
    process, but the affected connection is NOT closed on that path: the
    handler issues no action at all. -/
theorem c6_amended_scoped_failures (r : Int) (c : Nat) (n : Int)
    (pr : ParseResult) (hr : r ≠ 0) (hn : n < 0) (hne : n ≠ UV_EOF) :
    on_connect 0 r c = ([Action.closeHandle false], c + 1) ∧
      on_client_read n pr = [] := by
  constructor
  · simp [on_connect, hr]
  · have h2 : ¬ 0 < n := by omega
    simp [on_client_read, hne, h2]

/-- C6 witness. -/
theorem c6_amended_scoped_failures_witness :
    on_connect 0 (-1) 0 = ([Action.closeHandle false], 1) ∧
      on_client_read (-104) ⟨0, []⟩ = [] :=
  c6_amended_scoped_failures (-1) 0 (-104) ⟨0, []⟩
    (by decide) (by decide) (by decide)

/-- C7: evaluation of the startup checks at the failing input.  A bind
    failure aborts the process, as the claim states; but a listen
    failure does not: main assigns the uv_listen result to r and never
    checks it, so with a failed listen (for example UV_EADDRINUSE = -98)
    the process still enters the run loop. -/
theorem c7_code_evaluation :
    mainStartup 0 0 (-98) 0 = StartupOutcome.exited ∧
      mainStartup 0 0 0 (-98) = StartupOutcome.running := by
  decide

/-- C8: identities are assigned from the process-wide counter at accept
    time; over any run of connect events, the ids of the connections
    whose accept succeeded are strictly increasing in accept order (and
    hence unique), whatever the interleaving of later I/O, which the
    counter never depends on. -/
theorem c8_ids_strictly_increasing (c : Nat) (rs : List Int) :
    List.Pairwise (fun a b => a < b) (acceptedIds c rs) ∧
      (acceptedIds c rs).Nodup := by
  have hp : ∀ c, List.Pairwise (fun a b : Nat => a < b) (acceptedIds c rs) := by
    induction rs with
    | nil => intro c; simp [acceptedIds, runConnects]
    | cons r rs ih =>
      intro c
      rw [acceptedIds_cons]
      by_cases hr : r = 0
      · rw [if_pos hr]
        refine List.Pairwise.cons ?_ (ih (c + 1))
        intro b hb
        have := acceptedIds_le (c + 1) rs b hb
        omega
      · rw [if_neg hr]; exact ih (c + 1)
  refine ⟨hp c, List.Pairwise.imp ?_ (hp c)⟩
  intro a b hab
  omega

/-- C9: the headers-complete callback returns 1, the parser interface
    value that directs the parser to skip any body, for every request on
    every connection. -/
theorem c9_headers_complete_skips_body (request_id : Nat) :
    on_headers_complete request_id = bodySkipSignal ∧
      on_headers_complete request_id = 1 :=
  ⟨rfl, rfl⟩

/-- C10: the socket handle is the first declared member of client_t, and
    under any member layout (any member sizes and padding) the first
    member sits at byte offset 0 of the struct, so the connection
    pointer and the handle pointer denote the same address and the casts
    between them are consistent. -/
theorem c10_handle_first_member (layout : List Nat) :
    client_t_members.head? = some "handle" ∧
      fieldOffset layout 0 = 0 :=
  ⟨rfl, rfl⟩

end StaticServer
